import Mathlib

/-!
Verification of the coreclaw session engine: TLV frame codec
(internal/stream/stream.go), the buffering decoder of the terminal adaptor
(terminalOutput.processBuffer), and the Session task queue / processing loop
(internal/agent/session.go, internal/agent/processor.go).

Bytes are modelled as `Nat` (values below 256 in every reachable state);
Go `int64` counters are modelled as `Int` with explicit two's-complement
wrap-around (`wrap64`).
-/

namespace Coreclaw

/-! ## Frame codec — internal/stream/stream.go -/

/-- Big-endian 4-byte encoding of a 32-bit value, as produced by
`binary.BigEndian.PutUint32`.  Each byte keeps only its own 8 bits, so the
encoding coincides with `PutUint32 (uint32 n)` for every `n`. -/
def be32enc (n : Nat) : List Nat :=
  [n / 2 ^ 24 % 256, n / 2 ^ 16 % 256, n / 2 ^ 8 % 256, n % 256]

/-- Big-endian decoding of 4 bytes, as in `binary.BigEndian.Uint32`.
The Go code combines the bytes with shifts and `|`; on byte values
(each below 256) the shifted ranges are disjoint, so `|` equals `+`. -/
def be32dec (b0 b1 b2 b3 : Nat) : Nat :=
  b0 * 2 ^ 24 + b1 * 2 ^ 16 + b2 * 2 ^ 8 + b3

theorem be32enc_length (n : Nat) : (be32enc n).length = 4 := rfl

theorem be32dec_be32enc (n : Nat) (h : n < 2 ^ 32) :
    be32dec (n / 2 ^ 24 % 256) (n / 2 ^ 16 % 256) (n / 2 ^ 8 % 256) (n % 256) = n := by
  simp only [be32dec]
  omega

/-- `WriteTLV`: builds the complete message `tag (1) + length (4) + value`.
In Go the length is `uint32(int32(len(data)))`, which equals `len(data)`
whenever the frame is representable (`len(data) + 5 < 2^31`, otherwise the
`make` call would panic on a negative size); `be32enc` truncates to 32 bits
exactly like the cast chain does. -/
def writeTLV (tag : Nat) (payload : List Nat) : List Nat :=
  tag :: (be32enc payload.length ++ payload)

/-- `WriteTLV` hands the complete message to the output in a single
`output.Write(msg)` call; this lists the `Write` calls it performs. -/
def writeTLVCalls (tag : Nat) (payload : List Nat) : List (List Nat) :=
  [writeTLV tag payload]

/-- `ReadTLV` over an input that serves exactly the given bytes, each `Read`
filling its whole buffer whenever enough bytes remain (and failing
otherwise).  Returns the tag, the value, and the bytes left unread. -/
def readTLV (buf : List Nat) : Option (Nat × List Nat × List Nat) :=
  match buf with
  | [] => none
  | tag :: rest =>
    match rest with
    | b0 :: b1 :: b2 :: b3 :: rest2 =>
      let length := be32dec b0 b1 b2 b3
      if length ≤ rest2.length then
        some (tag, rest2.take length, rest2.drop length)
      else
        none
    | _ => none

theorem writeTLV_length (tag : Nat) (payload : List Nat) :
    (writeTLV tag payload).length = 5 + payload.length := by
  simp [writeTLV, be32enc]
  omega

/-- C1: For every tag byte and every payload, encoding with `WriteTLV` and
decoding the produced bytes with `ReadTLV` (over an input serving exactly
those bytes) returns the same tag and the same payload, consuming the whole
input.  The length bound is the representability bound of the Go encoder
(`make([]byte, 5+length)` with an `int32` length). -/
theorem readTLV_writeTLV (tag : Nat) (payload : List Nat)
    (htag : tag < 256) (hlen : payload.length + 5 < 2 ^ 31) :
    readTLV (writeTLV tag payload) = some (tag, payload, []) := by
  have hdec : be32dec (payload.length / 16777216 % 256) (payload.length / 65536 % 256)
      (payload.length / 256 % 256) (payload.length % 256) = payload.length := by
    simp only [be32dec]
    omega
  simp [writeTLV, be32enc, readTLV, hdec]

/-- C1 witness: concrete round-trip for tag `'B'` and payload `"Hi"`. -/
theorem readTLV_writeTLV_witness :
    readTLV (writeTLV 66 [72, 105]) = some (66, [72, 105], []) :=
  readTLV_writeTLV 66 [72, 105] (by decide) (by decide)

/-- C8: the encoder produces exactly `1 + 4 + len(payload)` bytes — the tag
byte, then the payload length as a big-endian uint32, then the payload
bytes — and performs exactly one `Write` call carrying the whole frame. -/
theorem writeTLV_single_frame (tag : Nat) (payload : List Nat)
    (hlen : payload.length + 5 < 2 ^ 31) :
    (writeTLV tag payload).length = 1 + 4 + payload.length ∧
    (writeTLV tag payload).take 1 = [tag] ∧
    ((writeTLV tag payload).drop 1).take 4 = be32enc payload.length ∧
    (writeTLV tag payload).drop 5 = payload ∧
    (∀ b0 b1 b2 b3, ((writeTLV tag payload).drop 1).take 4 = [b0, b1, b2, b3] →
      be32dec b0 b1 b2 b3 = payload.length) ∧
    writeTLVCalls tag payload = [writeTLV tag payload] := by
  refine ⟨by simp [writeTLV, be32enc]; omega, by simp [writeTLV], ?_, ?_, ?_, rfl⟩
  · simp [writeTLV, be32enc]
  · simp [writeTLV, be32enc]
  · intro b0 b1 b2 b3 hb
    simp [writeTLV, be32enc] at hb
    obtain ⟨h0, h1, h2, h3⟩ := hb
    subst h0 h1 h2 h3
    exact be32dec_be32enc payload.length (by omega)

/-- C8 witness: the frame for tag `'E'` and payload `"ok"`. -/
theorem writeTLV_single_frame_witness :
    (writeTLV 69 [111, 107]).length = 1 + 4 + 2 ∧
    writeTLVCalls 69 [111, 107] = [writeTLV 69 [111, 107]] := by
  have h := writeTLV_single_frame 69 [111, 107] (by decide)
  exact ⟨h.1, h.2.2.2.2.2⟩

/-! ## Buffering decoder — `terminalOutput` in the terminal adaptor -/

/-- One `(tag, value)` event dispatched to `writeColored`. -/
abbrev Event := Nat × List Nat

/-- `terminalOutput.processBuffer`: repeatedly peels complete frames off the
front of the buffer.  Mirrors the Go loop: the tag is byte 0,
`length := int32(BigEndian.Uint32(buffer[1:5]))`, and the loop stops when
fewer than 5 bytes, or fewer than `5+length` bytes, are buffered.  A decoded
length of `2^31` or more makes `int32(length)` negative, so the buffered-
bytes check passes vacuously and the slice expression panics: that case is
`none`.  Returns the dispatched events and the remaining buffer. -/
def processBuffer (buf : List Nat) : Option (List Event × List Nat) :=
  match buf with
  | b0 :: b1 :: b2 :: b3 :: b4 :: rest =>
    if be32dec b1 b2 b3 b4 < 2 ^ 31 then
      if rest.length < be32dec b1 b2 b3 b4 then
        some ([], b0 :: b1 :: b2 :: b3 :: b4 :: rest)
      else
        (processBuffer (rest.drop (be32dec b1 b2 b3 b4))).map
          (fun p => ((b0, rest.take (be32dec b1 b2 b3 b4)) :: p.1, p.2))
    else
      none
  | _ => some ([], buf)
termination_by buf.length
decreasing_by
  simp only [List.length_drop, List.length_cons]
  omega

/-- The state of a `terminalOutput`: the partial-frame buffer and the events
dispatched so far. -/
structure DecoderState where
  buffer : List Nat
  events : List Event
deriving DecidableEq

/-- `terminalOutput.Write`: appends the chunk to the buffer and runs
`processBuffer`; `none` models a panic inside `processBuffer`. -/
def decoderWrite (st : DecoderState) (chunk : List Nat) : Option DecoderState :=
  (processBuffer (st.buffer ++ chunk)).map fun p => ⟨p.2, st.events ++ p.1⟩

/-- Delivering a sequence of chunks one `Write` call at a time. -/
def decoderWrites (st : DecoderState) : List (List Nat) → Option DecoderState
  | [] => some st
  | c :: cs => (decoderWrite st c).bind fun st2 => decoderWrites st2 cs

/-- A protocol frame prior to encoding. -/
structure Frame where
  tag : Nat
  payload : List Nat
deriving DecidableEq

/-- A stream of frames encoded back to back by `WriteTLV`. -/
def encodeFrames (fs : List Frame) : List Nat :=
  (fs.map fun f => writeTLV f.tag f.payload).flatten

/-- The `(tag, value)` event a frame should produce at the decoder. -/
def frameEvent (f : Frame) : Event := (f.tag, f.payload)

theorem processBuffer_cons (b0 b1 b2 b3 b4 : Nat) (rest : List Nat) :
    processBuffer (b0 :: b1 :: b2 :: b3 :: b4 :: rest) =
      if be32dec b1 b2 b3 b4 < 2 ^ 31 then
        if rest.length < be32dec b1 b2 b3 b4 then
          some ([], b0 :: b1 :: b2 :: b3 :: b4 :: rest)
        else
          (processBuffer (rest.drop (be32dec b1 b2 b3 b4))).map
            (fun p => ((b0, rest.take (be32dec b1 b2 b3 b4)) :: p.1, p.2))
      else none := by
  rw [processBuffer]

theorem processBuffer_short (buf : List Nat) (h : buf.length < 5) :
    processBuffer buf = some ([], buf) := by
  rcases buf with _ | ⟨a, _ | ⟨b, _ | ⟨c, _ | ⟨d, _ | ⟨e, t⟩⟩⟩⟩⟩
  · rw [processBuffer]
    simp
  · rw [processBuffer]
    simp
  · rw [processBuffer]
    simp
  · rw [processBuffer]
    simp
  · rw [processBuffer]
    simp
  · simp only [List.length_cons] at h
    omega

theorem processBuffer_not_cons (x : List Nat)
    (hne : ∀ (b0 b1 b2 b3 b4 : Nat) (rest : List Nat),
      x = b0 :: b1 :: b2 :: b3 :: b4 :: rest → False) :
    x.length < 5 := by
  rcases x with _ | ⟨a, _ | ⟨b, _ | ⟨c, _ | ⟨d, _ | ⟨e, t⟩⟩⟩⟩⟩
  · simp
  · simp
  · simp
  · simp
  · simp
  · exact absurd rfl (hne a b c d e t)

/-- The remainder left by `processBuffer` is parse-stuck: running
`processBuffer` on it again consumes nothing. -/
theorem processBuffer_stuck (buf : List Nat) (E : List Event) (r : List Nat)
    (h : processBuffer buf = some (E, r)) : processBuffer r = some ([], r) := by
  induction buf using processBuffer.induct generalizing E r with
  | case1 b0 b1 b2 b3 b4 rest hlt hshort =>
    rw [processBuffer_cons, if_pos hlt, if_pos hshort] at h
    simp only [Option.some.injEq, Prod.mk.injEq] at h
    obtain ⟨hE, hr⟩ := h
    subst hr
    rw [processBuffer_cons, if_pos hlt, if_pos hshort]
  | case2 b0 b1 b2 b3 b4 rest hlt hshort ih =>
    rw [processBuffer_cons, if_pos hlt, if_neg hshort] at h
    rcases hmap : processBuffer (rest.drop (be32dec b1 b2 b3 b4)) with _ | p
    · rw [hmap] at h
      simp at h
    · rw [hmap] at h
      simp only [Option.map_some', Option.some.injEq, Prod.mk.injEq] at h
      obtain ⟨hE, hr⟩ := h
      subst hr
      exact ih p.1 p.2 (by rw [hmap])
  | case3 b0 b1 b2 b3 b4 rest hlt =>
    rw [processBuffer_cons, if_neg hlt] at h
    simp at h
  | case4 x hne =>
    have hlen := processBuffer_not_cons x hne
    rw [processBuffer_short x hlen] at h
    simp only [Option.some.injEq, Prod.mk.injEq] at h
    obtain ⟨hE, hr⟩ := h
    subst hr
    exact processBuffer_short x hlen

/-- Feeding more bytes after a successful partial parse continues the parse
from the stuck remainder: the events already dispatched stay, new events are
appended. -/
theorem processBuffer_append (B c : List Nat) (E : List Event) (r : List Nat)
    (h : processBuffer B = some (E, r)) :
    processBuffer (B ++ c) =
      (processBuffer (r ++ c)).map fun p => (E ++ p.1, p.2) := by
  induction B using processBuffer.induct generalizing E r with
  | case1 b0 b1 b2 b3 b4 rest hlt hshort =>
    rw [processBuffer_cons, if_pos hlt, if_pos hshort] at h
    simp only [Option.some.injEq, Prod.mk.injEq] at h
    obtain ⟨hE, hr⟩ := h
    subst hr
    rw [← hE]
    cases processBuffer ((b0 :: b1 :: b2 :: b3 :: b4 :: rest) ++ c) <;> simp
  | case2 b0 b1 b2 b3 b4 rest hlt hshort ih =>
    rw [processBuffer_cons, if_pos hlt, if_neg hshort] at h
    rcases hmap : processBuffer (rest.drop (be32dec b1 b2 b3 b4)) with _ | p
    · rw [hmap] at h
      simp at h
    · rw [hmap] at h
      simp only [Option.map_some', Option.some.injEq, Prod.mk.injEq] at h
      obtain ⟨hE, hr⟩ := h
      subst hr
      have hle : be32dec b1 b2 b3 b4 ≤ rest.length := Nat.le_of_not_lt hshort
      have hlong : ¬ (rest ++ c).length < be32dec b1 b2 b3 b4 := by
        rw [List.length_append]
        omega
      have hstep : processBuffer ((b0 :: b1 :: b2 :: b3 :: b4 :: rest) ++ c) =
          (processBuffer ((rest.drop (be32dec b1 b2 b3 b4)) ++ c)).map
            (fun p2 => ((b0, rest.take (be32dec b1 b2 b3 b4)) :: p2.1, p2.2)) := by
        show processBuffer (b0 :: b1 :: b2 :: b3 :: b4 :: (rest ++ c)) = _
        rw [processBuffer_cons, if_pos hlt, if_neg hlong,
          List.take_append_of_le_length hle, List.drop_append_of_le_length hle]
      rw [hstep, ih p.1 p.2 (by rw [hmap]), Option.map_map]
      rw [← hE]
      cases processBuffer (p.2 ++ c) <;> simp
  | case3 b0 b1 b2 b3 b4 rest hlt =>
    rw [processBuffer_cons, if_neg hlt] at h
    simp at h
  | case4 x hne =>
    have hlen := processBuffer_not_cons x hne
    rw [processBuffer_short x hlen] at h
    simp only [Option.some.injEq, Prod.mk.injEq] at h
    obtain ⟨hE, hr⟩ := h
    subst hr
    rw [← hE]
    cases processBuffer (x ++ c) <;> simp

/-- A parse panic (negative `int32` length) persists under appended bytes. -/
theorem processBuffer_append_none (B c : List Nat)
    (h : processBuffer B = none) : processBuffer (B ++ c) = none := by
  induction B using processBuffer.induct with
  | case1 b0 b1 b2 b3 b4 rest hlt hshort =>
    rw [processBuffer_cons, if_pos hlt, if_pos hshort] at h
    simp at h
  | case2 b0 b1 b2 b3 b4 rest hlt hshort ih =>
    rw [processBuffer_cons, if_pos hlt, if_neg hshort] at h
    rcases hmap : processBuffer (rest.drop (be32dec b1 b2 b3 b4)) with _ | p
    · have hle : be32dec b1 b2 b3 b4 ≤ rest.length := Nat.le_of_not_lt hshort
      have hlong : ¬ (rest ++ c).length < be32dec b1 b2 b3 b4 := by
        rw [List.length_append]
        omega
      show processBuffer (b0 :: b1 :: b2 :: b3 :: b4 :: (rest ++ c)) = none
      rw [processBuffer_cons, if_pos hlt, if_neg hlong,
        List.take_append_of_le_length hle, List.drop_append_of_le_length hle,
        ih hmap]
      rfl
    · rw [hmap] at h
      simp at h
  | case3 b0 b1 b2 b3 b4 rest hlt =>
    show processBuffer (b0 :: b1 :: b2 :: b3 :: b4 :: (rest ++ c)) = none
    rw [processBuffer_cons, if_neg hlt]
  | case4 x hne =>
    have hlen := processBuffer_not_cons x hne
    rw [processBuffer_short x hlen] at h
    simp at h

theorem be32dec_be32enc' (n : Nat) (h : n < 2 ^ 32) :
    be32dec (n / 16777216 % 256) (n / 65536 % 256) (n / 256 % 256) (n % 256) = n := by
  simp only [be32dec]
  omega

/-- Delivering a whole stream of encoded frames at once dispatches exactly
one event per frame and leaves an empty buffer. -/
theorem processBuffer_encodeFrames (fs : List Frame)
    (h : ∀ f ∈ fs, f.payload.length < 2 ^ 31) :
    processBuffer (encodeFrames fs) = some (fs.map frameEvent, []) := by
  induction fs with
  | nil =>
    have he : encodeFrames [] = [] := rfl
    show processBuffer (encodeFrames []) = some ([], [])
    rw [he, processBuffer_short [] (by simp)]
  | cons f fs ih =>
    have hwf := h f (List.mem_cons_self f fs)
    have hdec := be32dec_be32enc' f.payload.length (by omega)
    have hstream : encodeFrames (f :: fs) =
        f.tag :: (f.payload.length / 16777216 % 256) :: (f.payload.length / 65536 % 256) ::
          (f.payload.length / 256 % 256) :: (f.payload.length % 256) ::
          (f.payload ++ encodeFrames fs) := by
      simp [encodeFrames, writeTLV, be32enc]
    have hnotshort : ¬ (f.payload ++ encodeFrames fs).length < f.payload.length := by
      rw [List.length_append]
      omega
    rw [hstream, processBuffer_cons, hdec, if_pos hwf, if_neg hnotshort,
      List.take_left, List.drop_left, ih (fun g hg => h g (List.mem_cons_of_mem f hg))]
    simp [frameEvent]

/-- Feeding the chunks of a stream one `Write` at a time is the same as
parsing the concatenated stream, provided the starting buffer is stuck. -/
theorem decoderWrites_flatten (chunks : List (List Nat)) (st : DecoderState)
    (hst : processBuffer st.buffer = some ([], st.buffer)) :
    decoderWrites st chunks =
      (processBuffer (st.buffer ++ chunks.flatten)).map fun p => ⟨p.2, st.events ++ p.1⟩ := by
  induction chunks generalizing st with
  | nil =>
    simp only [decoderWrites, List.flatten_nil, List.append_nil, hst, Option.map_some']
  | cons c cs ih =>
    simp only [decoderWrites, decoderWrite]
    have hassoc : st.buffer ++ (c :: cs).flatten = (st.buffer ++ c) ++ cs.flatten := by
      simp [List.flatten_cons, List.append_assoc]
    rcases hpc : processBuffer (st.buffer ++ c) with _ | p
    · simp only [Option.map_none', Option.none_bind]
      rw [hassoc, processBuffer_append_none _ _ hpc]
      rfl
    · simp only [Option.map_some', Option.some_bind]
      have hstuck := processBuffer_stuck _ p.1 p.2 (by rw [hpc])
      have ihe := ih ⟨p.2, st.events ++ p.1⟩ hstuck
      rw [ihe, hassoc, processBuffer_append (st.buffer ++ c) cs.flatten p.1 p.2 (by rw [hpc]),
        Option.map_map]
      cases processBuffer (p.2 ++ cs.flatten) <;> simp

/-- C2: for every sequence of encoded frames and every way of splitting the
concatenated bytes into chunks delivered one `Write` at a time, the decoder
dispatches exactly the frames' `(tag, payload)` events — the same events as
a single delivery of the whole stream — with nothing left buffered. -/
theorem decoder_fragmentation_invariance (fs : List Frame)
    (hwf : ∀ f ∈ fs, f.payload.length < 2 ^ 31)
    (chunks : List (List Nat)) (hchunks : chunks.flatten = encodeFrames fs) :
    decoderWrites ⟨[], []⟩ chunks = some ⟨[], fs.map frameEvent⟩ ∧
    decoderWrites ⟨[], []⟩ [encodeFrames fs] = some ⟨[], fs.map frameEvent⟩ := by
  have hinit : processBuffer ([] : List Nat) = some ([], []) := processBuffer_short [] (by simp)
  constructor
  · rw [decoderWrites_flatten chunks ⟨[], []⟩ hinit]
    simp [hchunks, processBuffer_encodeFrames fs hwf]
  · rw [decoderWrites_flatten [encodeFrames fs] ⟨[], []⟩ hinit]
    simp [processBuffer_encodeFrames fs hwf]

/-- C2 witness: two frames (tag `'B'` payload `"Hi"`, tag `'E'` empty
payload) delivered in six chunks, several splits falling inside the 4-byte
length fields, dispatch exactly the two events. -/
theorem decoder_fragmentation_invariance_witness :
    ([[66, 0], [0], [0], [2, 72], [105, 69, 0], [0, 0, 0]] : List (List Nat)).flatten =
        encodeFrames [⟨66, [72, 105]⟩, ⟨69, []⟩] ∧
    decoderWrites ⟨[], []⟩ [[66, 0], [0], [0], [2, 72], [105, 69, 0], [0, 0, 0]] =
        some ⟨[], [(66, [72, 105]), (69, [])]⟩ :=
  ⟨by decide, (decoder_fragmentation_invariance [⟨66, [72, 105]⟩, ⟨69, []⟩]
      (by decide) [[66, 0], [0], [0], [2, 72], [105, 69, 0], [0, 0, 0]] (by decide)).1⟩

/-! ## Wire tags

TLV protocol tag bytes as recorded in STATE.md: userText `'A'`,
assistantText `'B'`, reasoning `'C'`, tool `'D'`, error `'E'`, notify
`'N'`, promptStart `'P'`, system `'S'`.  The stream-gap tag's byte value
is not recorded under src; any byte distinct from the others works and no
claim depends on it. -/

def tagUserText : Nat := 65

def tagAssistantText : Nat := 66

def tagReasoning : Nat := 67

def tagTool : Nat := 68

def tagError : Nat := 69

def tagNotify : Nat := 78

def tagPromptStart : Nat := 80

def tagSystem : Nat := 83

def tagStreamGap : Nat := 71

/-! ## Session — internal/agent/session.go (the Task-queue variant) -/

/-- Two's-complement wrap-around of Go `int64` arithmetic. -/
def wrap64 (n : Int) : Int := (n + 2 ^ 63) % 2 ^ 64 - 2 ^ 63

/-- An `Int` representable as a Go `int64`. -/
def int64Range (n : Int) : Prop := -(2 ^ 63) ≤ n ∧ n < 2 ^ 63

instance (n : Int) : Decidable (int64Range n) := by
  unfold int64Range
  infer_instance

theorem wrap64_eq_self (n : Int) (h : int64Range n) : wrap64 n = n := by
  obtain ⟨h1, h2⟩ := h
  unfold wrap64
  omega

/-- `fantasy.Usage`: the token counters (Go `int64`). -/
structure Usage where
  inputTokens : Int
  outputTokens : Int
  totalTokens : Int
  reasoningTokens : Int
deriving DecidableEq

def Usage.zero : Usage := ⟨0, 0, 0, 0⟩

/-- The four `TotalSpent += usage` updates of `ProcessPrompt`/`Summarize`. -/
def addUsage (a b : Usage) : Usage :=
  ⟨wrap64 (a.inputTokens + b.inputTokens),
   wrap64 (a.outputTokens + b.outputTokens),
   wrap64 (a.totalTokens + b.totalTokens),
   wrap64 (a.reasoningTokens + b.reasoningTokens)⟩

/-- `fantasy.Message`, reduced to its role and text content. -/
structure Message where
  role : String
  text : String
deriving DecidableEq

/-- `fantasy.NewUserMessage`. -/
def newUserMessage (prompt : String) : Message := ⟨"user", prompt⟩

def Message.zero : Message := ⟨"", ""⟩

/-- The synthetic assistant entry `runAsync` appends after a canceled task. -/
def cancelMessage : Message := ⟨"assistant", "The user canceled."⟩

/-- `Task`: the unit of work in the task queue. -/
inductive Task where
  | userPrompt (text : String)
  | commandPrompt (command : String)
deriving DecidableEq

/-- The Session fields the Agent-facing calls mutate: message history and
the usage counters. -/
structure SessionCore where
  messages : List Message
  totalSpent : Usage
  contextTokens : Int
deriving DecidableEq

/-- The Session: core plus the task queue (a channel of capacity 10), the
in-progress flag, and whether a cancel handle is stored
(`cancelCurrent != nil`). -/
structure SessionState where
  core : SessionCore
  taskQueue : List Task
  inProgress : Bool
  cancelHandle : Bool
deriving DecidableEq

/-- Outcome of one `Processor.ProcessPrompt` call (the Agent round trip):
the extracted assistant message, the reported usage, and whether the call
returned an error. -/
structure ProcResult where
  msg : Message
  usage : Usage
  err : Bool
deriving DecidableEq

/-- `Session.ProcessPrompt`, with the Processor call's outcome passed as a
parameter: appends the user message, adds the reported usage to
`TotalSpent` (also on error), grows `ContextTokens` by the reported total,
and appends the assistant message only on success and only when it has a
role.  Returns the new core and the `(message, usage, error)` results.
(The `system` frame `sendSystemInfo` writes afterwards is not tracked.) -/
def sessionProcessPrompt (res : ProcResult) (prompt : String) (c : SessionCore) :
    SessionCore × Message × Usage × Bool :=
  let c1 : SessionCore := { c with messages := c.messages ++ [newUserMessage prompt] }
  let c2 : SessionCore :=
    { c1 with totalSpent := addUsage c1.totalSpent res.usage,
              contextTokens := wrap64 (c1.contextTokens + res.usage.totalTokens) }
  if res.err then (c2, Message.zero, Usage.zero, true)
  else if res.msg.role ≠ "" then
    ({ c2 with messages := c2.messages ++ [res.msg] }, res.msg, res.usage, false)
  else (c2, res.msg, res.usage, false)

/-- `Session.Summarize` with the summary call's outcome passed in: on error
the state is unchanged; on success the whole history is replaced by the
single summary message, the usage is added to `TotalSpent`, and
`ContextTokens` is reset to the summary's output tokens. -/
def summarize (res : ProcResult) (c : SessionCore) : SessionCore × Bool :=
  if res.err then (c, true)
  else
    ({ messages := [res.msg],
       totalSpent := addUsage c.totalSpent res.usage,
       contextTokens := res.usage.outputTokens }, false)

/-- The task-queue channel capacity (`make(chan Task, 10)`). -/
def queueCapacity : Nat := 10

def notifyQueuedText : String :=
  "[Queued] Previous task in progress. Will run after completion."

def notifyBusyText : String := "[Busy] Cannot queue, try again shortly."

/-- `writeGapped`: a stream-gap frame, the tagged frame, another gap. -/
def writeGapped (tag : Nat) (msg : String) : List (Nat × String) :=
  [(tagStreamGap, ""), (tag, msg), (tagStreamGap, "")]

/-- `queueTask`: non-blocking send on the capacity-10 channel. -/
def queueTask (s : SessionState) (t : Task) : Bool × SessionState :=
  if s.taskQueue.length < queueCapacity then
    (true, { s with taskQueue := s.taskQueue ++ [t] })
  else
    (false, s)

/-- `SubmitTask`: non-blocking enqueue; a "queued" notify when the loop is
busy, spawning the loop when idle, a "busy" notify (dropping the task) when
the queue is full.  Returns the new state, the frames written, and whether
a `runAsync` goroutine was spawned. -/
def submitTask (s : SessionState) (t : Task) :
    SessionState × List (Nat × String) × Bool :=
  match queueTask s t with
  | (true, s1) =>
    if s1.inProgress then (s1, writeGapped tagNotify notifyQueuedText, false)
    else (s1, [], true)
  | (false, s1) => (s1, writeGapped tagNotify notifyBusyText, false)

/-- `Session.CancelCurrent` (current variant, session.go line 298): invokes
the stored cancel handle when present.  Returns the reported result, the
(unchanged) state, and how many times the handle was invoked; the handle is
cleared only by the processing loop, never here, and no
cancel-in-progress flag exists in this variant. -/
def cancelCurrent (s : SessionState) : Bool × SessionState × Nat :=
  if s.cancelHandle then (true, s, 1) else (false, s, 0)

/-- One dequeued task inside `runAsync`: store a fresh cancel handle, run
the task (`exec` is the Agent round trip, returning the new core and
whether the task's context ended canceled), append the synthetic
"The user canceled." assistant entry when it was canceled, and clear the
handle.  The loop continues with the next queued task in both cases.
(The `promptStart` frames the loop writes are not tracked here.) -/
def runOneTask (exec : Task → SessionCore → SessionCore × Bool)
    (t : Task) (s : SessionState) : SessionState :=
  let s1 : SessionState := { s with cancelHandle := true }
  let r := exec t s1.core
  if r.2 then
    { s1 with core := { r.1 with messages := r.1.messages ++ [cancelMessage] },
              cancelHandle := false }
  else
    { s1 with core := r.1, cancelHandle := false }

def runAsyncAux (exec : Task → SessionCore → SessionCore × Bool) :
    List Task → SessionState → SessionState × List Task
  | [], s => (s, [])
  | t :: rest, s =>
    let p := runAsyncAux exec rest (runOneTask exec t s)
    (p.1, t :: p.2)

/-- `runAsync`: sets `inProgress`, drains the queue in submission order,
and resets `inProgress`.  Returns the final state and the tasks it
processed, in order. -/
def runAsync (exec : Task → SessionCore → SessionCore × Bool) (s : SessionState) :
    SessionState × List Task :=
  let p := runAsyncAux exec s.taskQueue { s with taskQueue := [], inProgress := true }
  ({ p.1 with inProgress := false }, p.2)

/-! ## readFromInput — the Session's input loop -/

/-- What one incoming frame makes `readFromInput` do. -/
inductive InputAction where
  | submittedCommand (cmd : String)
  | submittedPrompt (text : String)
  | rejected
deriving DecidableEq

/-- The error text for an invalid input tag
(`fmt.Sprintf` with `%c` verbs for both tag bytes). -/
def invalidTagText (tag : Nat) : String :=
  "Invalid input tag: " ++ String.singleton (Char.ofNat tag) ++
    " (only " ++ String.singleton (Char.ofNat tagUserText) ++ " is allowed)"

/-- `readFromInput`, one frame: a `userText` payload starting with `/` is
submitted as a command without the slash; any other `userText` payload is
submitted as a prompt; any other tag is rejected with an error frame naming
the offending and the legal tag, plus a stream gap.  Returns the action and
the frames written. -/
def dispatchInput (tag : Nat) (value : String) : InputAction × List (Nat × String) :=
  if tag = tagUserText then
    match value.toList with
    | c :: rest =>
      if c = '/' then (InputAction.submittedCommand (String.mk rest), [])
      else (InputAction.submittedPrompt value, [])
    | [] => (InputAction.submittedPrompt value, [])
  else
    (InputAction.rejected, [(tagError, invalidTagText tag), (tagStreamGap, "")])

/-- The read loop stops only when `ReadTLV` fails (input closed): every
delivered frame is dispatched, in order. -/
def readFromInput (frames : List (Nat × String)) :
    List (InputAction × List (Nat × String)) :=
  frames.map fun f => dispatchInput f.1 f.2

/-! ## Tool-call translation — internal/agent/processor.go -/

/-- `fantasy.ToolCallContent`, with the JSON `Input` modelled as the parsed
flat string-valued object. -/
structure ToolCallContent where
  toolName : String
  input : List (String × String)
deriving DecidableEq

/-- `json.Unmarshal` into a struct with one string field, modelled on the
parsed object: the named field's value, or `""` when the field is absent
(also the Go result on a parse failure). -/
def jsonStringField (field : String) (input : List (String × String)) : String :=
  match input.find? (fun p => p.1 == field) with
  | some p => p.2
  | none => ""

def extractPosixShellCommand (input : List (String × String)) : String :=
  jsonStringField "command" input

def extractSkillName (input : List (String × String)) : String :=
  jsonStringField "name" input

def extractReadFilePath (input : List (String × String)) : String :=
  jsonStringField "path" input

def extractWriteFilePath (input : List (String × String)) : String :=
  jsonStringField "path" input

/-- One `strings.ReplaceAll` pass with a single-character needle. -/
def escapeChar (needle : Char) (repl : List Char) (s : List Char) : List Char :=
  (s.map fun ch => if ch = needle then repl else [ch]).flatten

/-- `formatCommon`: escape newlines then tabs for single-line display. -/
def formatCommon (cmd : String) : String :=
  String.mk (escapeChar '\t' ['\\', 't'] (escapeChar '\n' ['\\', 'n'] cmd.toList))

/-- `Processor.handleToolCall`: a per-tool-name summary; one `tool` frame
when the summary is non-empty, no frame otherwise. -/
def handleToolCall (tc : ToolCallContent) : List (Nat × String) :=
  let value : String :=
    if tc.toolName = "posix_shell" then
      if extractPosixShellCommand tc.input ≠ "" then
        tc.toolName ++ ": " ++ formatCommon (extractPosixShellCommand tc.input)
      else ""
    else if tc.toolName = "activate_skill" then
      if extractSkillName tc.input ≠ "" then
        tc.toolName ++ ": " ++ extractSkillName tc.input
      else ""
    else if tc.toolName = "read_file" then
      if extractReadFilePath tc.input ≠ "" then
        tc.toolName ++ ": " ++ extractReadFilePath tc.input
      else ""
    else if tc.toolName = "write_file" then
      if extractWriteFilePath tc.input ≠ "" then
        tc.toolName ++ ": " ++ extractWriteFilePath tc.input
      else ""
    else ""
  if value ≠ "" then [(tagTool, value)] else []

/-- The `OnToolCall` callback: `handleToolCall`, then one stream gap. -/
def onToolCall (tc : ToolCallContent) : List (Nat × String) :=
  handleToolCall tc ++ [(tagStreamGap, "")]

/-! ## Session theorems -/

/-- C3: submitting a task while the processing loop is busy never blocks:
with room in the capacity-10 queue the task is appended at the tail
(submission order preserved) and exactly one notify frame — the "queued"
advisory — is written; with the queue full exactly one notify frame — the
"busy" advisory — is written, the task is dropped, and the queued tasks are
untouched.  No loop is spawned in either case. -/
theorem submitTask_queue_bound (s : SessionState) (t : Task)
    (hbusy : s.inProgress = true) :
    (s.taskQueue.length < queueCapacity →
      (submitTask s t).1.taskQueue = s.taskQueue ++ [t] ∧
      ((submitTask s t).2.1.filter fun f => f.1 == tagNotify) =
        [(tagNotify, notifyQueuedText)] ∧
      (submitTask s t).2.2 = false) ∧
    (¬ s.taskQueue.length < queueCapacity →
      (submitTask s t).1.taskQueue = s.taskQueue ∧
      ((submitTask s t).2.1.filter fun f => f.1 == tagNotify) =
        [(tagNotify, notifyBusyText)] ∧
      (submitTask s t).2.2 = false) := by
  constructor
  · intro hroom
    simp [submitTask, queueTask, if_pos hroom, hbusy, writeGapped, tagStreamGap, tagNotify]
  · intro hfull
    simp [submitTask, queueTask, if_neg hfull, writeGapped, tagStreamGap, tagNotify]

/-- C3 witness: a busy session with a full queue gets exactly the "busy"
notify and keeps its ten queued tasks; a busy session with room gets the
"queued" notify and the task at the tail. -/
theorem submitTask_queue_bound_witness :
    ((submitTask ⟨⟨[], Usage.zero, 0⟩, List.replicate 10 (Task.userPrompt "a"), true, true⟩
        (Task.userPrompt "b")).2.1.filter fun f => f.1 == tagNotify) =
      [(tagNotify, notifyBusyText)] ∧
    (submitTask ⟨⟨[], Usage.zero, 0⟩, List.replicate 10 (Task.userPrompt "a"), true, true⟩
        (Task.userPrompt "b")).1.taskQueue = List.replicate 10 (Task.userPrompt "a") ∧
    (submitTask ⟨⟨[], Usage.zero, 0⟩, [], true, true⟩ (Task.userPrompt "b")).1.taskQueue =
      [Task.userPrompt "b"] := by
  have hfull := (submitTask_queue_bound
    ⟨⟨[], Usage.zero, 0⟩, List.replicate 10 (Task.userPrompt "a"), true, true⟩
    (Task.userPrompt "b") rfl).2 (by decide)
  have hroom := (submitTask_queue_bound
    ⟨⟨[], Usage.zero, 0⟩, [], true, true⟩ (Task.userPrompt "b") rfl).1 (by decide)
  exact ⟨hfull.2.1, hfull.1, hroom.1⟩

/-- C4 (evidence of the code bug): with a cancel handle stored — a task in
flight whose cancellation is still propagating — `CancelCurrent` returns
true and invokes the handle; an immediately repeated call returns true
again and re-invokes the handle, although the function's own doc comment
promises "false if cancel is already in progress" (the current variant
keeps no cancel-in-progress flag; the other variant in the file does).
After the loop clears the handle, the call returns false and invokes
nothing. -/
theorem cancelCurrent_second_call :
    (cancelCurrent ⟨⟨[], Usage.zero, 0⟩, [], true, true⟩).1 = true ∧
    (cancelCurrent (cancelCurrent ⟨⟨[], Usage.zero, 0⟩, [], true, true⟩).2.1).1 = true ∧
    (cancelCurrent (cancelCurrent ⟨⟨[], Usage.zero, 0⟩, [], true, true⟩).2.1).2.2 = 1 ∧
    (cancelCurrent ⟨⟨[], Usage.zero, 0⟩, [], false, false⟩).1 = false ∧
    (cancelCurrent ⟨⟨[], Usage.zero, 0⟩, [], false, false⟩).2.2 = 0 := by
  decide

theorem runAsyncAux_processed (exec : Task → SessionCore → SessionCore × Bool) :
    ∀ (q : List Task) (s0 : SessionState), (runAsyncAux exec q s0).2 = q
  | [], _ => rfl
  | t :: rest, s0 => by
    simp [runAsyncAux, runAsyncAux_processed exec rest]

/-- C5: after a task whose context ended canceled, the loop appends exactly
one synthetic "user canceled" assistant entry to the history the task left,
clears the stored cancel handle, and still processes every queued task in
submission order — the canceled task does not abort the loop. -/
theorem runAsync_cancel_continue (exec : Task → SessionCore → SessionCore × Bool)
    (s : SessionState) (t : Task) (rest : List Task)
    (hq : s.taskQueue = t :: rest)
    (hc : (exec t s.core).2 = true) :
    (runOneTask exec t { s with taskQueue := [], inProgress := true }).core.messages =
      (exec t s.core).1.messages ++ [cancelMessage] ∧
    (runOneTask exec t { s with taskQueue := [], inProgress := true }).cancelHandle = false ∧
    (runAsync exec s).2 = t :: rest := by
  refine ⟨?_, ?_, ?_⟩
  · simp [runOneTask, hc]
  · simp [runOneTask, hc]
  · simp [runAsync, runAsyncAux_processed exec, hq]

/-- C5 witness: an exec that reports cancellation on the first task; both
queued tasks are still processed and the synthetic entry is appended. -/
theorem runAsync_cancel_continue_witness :
    (runOneTask (fun _ c => (c, true)) (Task.userPrompt "a")
        { (⟨⟨[], Usage.zero, 0⟩, [Task.userPrompt "a", Task.userPrompt "b"], false, false⟩ :
            SessionState) with taskQueue := [], inProgress := true }).core.messages =
      [cancelMessage] ∧
    (runAsync (fun _ c => (c, true))
        ⟨⟨[], Usage.zero, 0⟩, [Task.userPrompt "a", Task.userPrompt "b"], false, false⟩).2 =
      [Task.userPrompt "a", Task.userPrompt "b"] := by
  have h := runAsync_cancel_continue (fun _ c => (c, true))
    ⟨⟨[], Usage.zero, 0⟩, [Task.userPrompt "a", Task.userPrompt "b"], false, false⟩
    (Task.userPrompt "a") [Task.userPrompt "b"] rfl rfl
  exact ⟨h.1, h.2.2⟩

/-- C6: on a successful summary call the whole history is replaced by the
single summary message, `ContextTokens` is reset to exactly the summary's
reported output tokens, and every `TotalSpent` counter grows by the summary
call's usage (stated within `int64` range, where Go addition is plain
addition). -/
theorem summarize_replaces_history (res : ProcResult) (c : SessionCore)
    (herr : res.err = false)
    (hin : int64Range (c.totalSpent.inputTokens + res.usage.inputTokens))
    (hout : int64Range (c.totalSpent.outputTokens + res.usage.outputTokens))
    (htot : int64Range (c.totalSpent.totalTokens + res.usage.totalTokens))
    (hreas : int64Range (c.totalSpent.reasoningTokens + res.usage.reasoningTokens)) :
    (summarize res c).1.messages = [res.msg] ∧
    (summarize res c).1.contextTokens = res.usage.outputTokens ∧
    (summarize res c).1.totalSpent =
      ⟨c.totalSpent.inputTokens + res.usage.inputTokens,
       c.totalSpent.outputTokens + res.usage.outputTokens,
       c.totalSpent.totalTokens + res.usage.totalTokens,
       c.totalSpent.reasoningTokens + res.usage.reasoningTokens⟩ ∧
    (summarize res c).2 = false := by
  simp [summarize, herr, addUsage, wrap64_eq_self _ hin, wrap64_eq_self _ hout,
    wrap64_eq_self _ htot, wrap64_eq_self _ hreas]

/-- C6 witness: a concrete successful summary replaces a two-message
history and resets the context counter to the reported output tokens. -/
theorem summarize_replaces_history_witness :
    (summarize ⟨⟨"assistant", "sum"⟩, ⟨3, 5, 9, 1⟩, false⟩
        ⟨[⟨"user", "hi"⟩, ⟨"assistant", "yo"⟩], ⟨10, 20, 30, 0⟩, 30⟩).1.messages =
      [⟨"assistant", "sum"⟩] ∧
    (summarize ⟨⟨"assistant", "sum"⟩, ⟨3, 5, 9, 1⟩, false⟩
        ⟨[⟨"user", "hi"⟩, ⟨"assistant", "yo"⟩], ⟨10, 20, 30, 0⟩, 30⟩).1.contextTokens = 5 ∧
    (summarize ⟨⟨"assistant", "sum"⟩, ⟨3, 5, 9, 1⟩, false⟩
        ⟨[⟨"user", "hi"⟩, ⟨"assistant", "yo"⟩], ⟨10, 20, 30, 0⟩, 30⟩).1.totalSpent =
      ⟨13, 25, 39, 1⟩ := by
  have h := summarize_replaces_history ⟨⟨"assistant", "sum"⟩, ⟨3, 5, 9, 1⟩, false⟩
    ⟨[⟨"user", "hi"⟩, ⟨"assistant", "yo"⟩], ⟨10, 20, 30, 0⟩, 30⟩
    rfl (by decide) (by decide) (by decide) (by decide)
  exact ⟨h.1, h.2.1, h.2.2.1⟩

/-- C7: a `userText` frame whose payload begins with `/` is submitted as a
command with the slash stripped; a `userText` payload not beginning with
`/` is submitted as a prompt; any other tag is rejected with an error frame
naming the offending tag and the single legal tag (plus a stream gap); and
the loop dispatches every following frame as well. -/
theorem readFromInput_dispatch (tag : Nat) (value : String) :
    (tag = tagUserText → ∀ rest, value.toList = '/' :: rest →
      dispatchInput tag value = (InputAction.submittedCommand (String.mk rest), [])) ∧
    (tag = tagUserText → value.toList.head? ≠ some '/' →
      dispatchInput tag value = (InputAction.submittedPrompt value, [])) ∧
    (tag ≠ tagUserText →
      dispatchInput tag value =
        (InputAction.rejected, [(tagError, invalidTagText tag), (tagStreamGap, "")])) ∧
    (∀ frames, readFromInput ((tag, value) :: frames) =
      dispatchInput tag value :: readFromInput frames) := by
  refine ⟨?_, ?_, ?_, ?_⟩
  · intro ht rest hv
    have hv2 : value.data = '/' :: rest := hv
    simp [dispatchInput, ht, hv2]
  · intro ht hne
    rcases hv : value.toList with _ | ⟨c, rest⟩
    · have hv2 : value.data = [] := hv
      simp [dispatchInput, ht, hv2]
    · have hc : ¬ c = '/' := fun hcc => hne (by rw [hv, hcc]; rfl)
      have hv2 : value.data = c :: rest := hv
      simp [dispatchInput, ht, hv2, hc]
  · intro ht
    simp [dispatchInput, ht]
  · intro frames
    simp [readFromInput]

/-- C7 witness: `/summarize` is submitted as the command `summarize`, a
plain payload as a prompt, and a reasoning-tagged frame is rejected with
the error naming `R`'s byte and `A`. -/
theorem readFromInput_dispatch_witness :
    dispatchInput tagUserText "/summarize" =
      (InputAction.submittedCommand "summarize", []) ∧
    dispatchInput tagUserText "hello" = (InputAction.submittedPrompt "hello", []) ∧
    dispatchInput tagReasoning "x" =
      (InputAction.rejected, [(tagError, invalidTagText tagReasoning), (tagStreamGap, "")]) := by
  refine ⟨?_, ?_, ?_⟩
  · have h := (readFromInput_dispatch tagUserText "/summarize").1 rfl
      "summarize".toList (by decide)
    rw [h]
    decide
  · exact (readFromInput_dispatch tagUserText "hello").2.1 rfl (by decide)
  · exact (readFromInput_dispatch tagReasoning "x").2.2.1 (by decide)

theorem append_ne_empty_left (a c : String) (ha : a.length ≠ 0) :
    a ++ c ≠ "" := by
  intro h
  have hl := congrArg String.length h
  simp [String.length_append] at hl
  omega

/-- C9 (amended): a tool call to one of the four recognized tools whose
extracted argument is non-empty produces exactly one `tool` frame with
payload `name ++ ": " ++ summary` — for the shell tool the summary is the
command with newlines/tabs escaped — and any other tool call produces no
`tool` frame: neither a recognized tool whose argument extraction is empty
(or failed, which Go reports as `""`) nor an unrecognized tool name. -/
theorem handleToolCall_recognized (tc : ToolCallContent) :
    (tc.toolName = "posix_shell" → extractPosixShellCommand tc.input ≠ "" →
      handleToolCall tc =
        [(tagTool, tc.toolName ++ ": " ++ formatCommon (extractPosixShellCommand tc.input))]) ∧
    (tc.toolName = "activate_skill" → extractSkillName tc.input ≠ "" →
      handleToolCall tc = [(tagTool, tc.toolName ++ ": " ++ extractSkillName tc.input)]) ∧
    (tc.toolName = "read_file" → extractReadFilePath tc.input ≠ "" →
      handleToolCall tc = [(tagTool, tc.toolName ++ ": " ++ extractReadFilePath tc.input)]) ∧
    (tc.toolName = "write_file" → extractWriteFilePath tc.input ≠ "" →
      handleToolCall tc = [(tagTool, tc.toolName ++ ": " ++ extractWriteFilePath tc.input)]) ∧
    (tc.toolName = "posix_shell" → extractPosixShellCommand tc.input = "" →
      handleToolCall tc = []) ∧
    (tc.toolName = "activate_skill" → extractSkillName tc.input = "" →
      handleToolCall tc = []) ∧
    (tc.toolName = "read_file" → extractReadFilePath tc.input = "" →
      handleToolCall tc = []) ∧
    (tc.toolName = "write_file" → extractWriteFilePath tc.input = "" →
      handleToolCall tc = []) ∧
    (tc.toolName ∉ ["posix_shell", "activate_skill", "read_file", "write_file"] →
      handleToolCall tc = []) := by
  refine ⟨?_, ?_, ?_, ?_, ?_, ?_, ?_, ?_, ?_⟩
  · intro h1 h2
    have hv := append_ne_empty_left "posix_shell: "
      (formatCommon (extractPosixShellCommand tc.input)) (by decide)
    simp [handleToolCall, h1, h2, hv]
  · intro h1 h2
    have hv := append_ne_empty_left "activate_skill: " (extractSkillName tc.input) (by decide)
    simp [handleToolCall, h1, h2, hv]
  · intro h1 h2
    have hv := append_ne_empty_left "read_file: " (extractReadFilePath tc.input) (by decide)
    simp [handleToolCall, h1, h2, hv]
  · intro h1 h2
    have hv := append_ne_empty_left "write_file: " (extractWriteFilePath tc.input) (by decide)
    simp [handleToolCall, h1, h2, hv]
  · intro h1 h2
    simp [handleToolCall, h1, h2]
  · intro h1 h2
    simp [handleToolCall, h1, h2]
  · intro h1 h2
    simp [handleToolCall, h1, h2]
  · intro h1 h2
    simp [handleToolCall, h1, h2]
  · intro h
    have h1 : ¬ tc.toolName = "posix_shell" := fun e => h (by simp [e])
    have h2 : ¬ tc.toolName = "activate_skill" := fun e => h (by simp [e])
    have h3 : ¬ tc.toolName = "read_file" := fun e => h (by simp [e])
    have h4 : ¬ tc.toolName = "write_file" := fun e => h (by simp [e])
    simp [handleToolCall, h1, h2, h3, h4]

/-- C9 witness: a shell call with an embedded newline yields exactly one
`tool` frame with the newline escaped; a skill activation whose input
carries no name yields no `tool` frame. -/
theorem handleToolCall_recognized_witness :
    handleToolCall ⟨"posix_shell", [("command", "ab\ncd")]⟩ =
      [(tagTool, "posix_shell: ab\\ncd")] ∧
    handleToolCall ⟨"activate_skill", []⟩ = [] := by
  constructor
  · have h := (handleToolCall_recognized ⟨"posix_shell", [("command", "ab\ncd")]⟩).1
      rfl (by decide)
    rw [h]
    decide
  · exact (handleToolCall_recognized ⟨"activate_skill", []⟩).2.2.2.2.2.1 rfl rfl

/-- C9 counterexample: a shell tool call whose JSON input carries an empty
command string — `extractPosixShellCommand` returns `""` — produces zero
`tool` frames, not exactly one as the claim states for every tool call. -/
theorem handleToolCall_counterexample :
    ((onToolCall ⟨"posix_shell", [("command", "")]⟩).filter fun f => f.1 == tagTool) = [] := by
  decide

/-- C10: when the Agent call inside `ProcessPrompt` errors, the session
still adds the reported usage to `TotalSpent` and the reported total to
`ContextTokens`, keeps the user message appended at the start of the call,
appends no assistant message, and returns the zero message and zero usage
together with the error (stated within `int64` range). -/
theorem processPrompt_error_accounting (res : ProcResult) (prompt : String)
    (c : SessionCore) (herr : res.err = true)
    (hin : int64Range (c.totalSpent.inputTokens + res.usage.inputTokens))
    (hout : int64Range (c.totalSpent.outputTokens + res.usage.outputTokens))
    (htot : int64Range (c.totalSpent.totalTokens + res.usage.totalTokens))
    (hreas : int64Range (c.totalSpent.reasoningTokens + res.usage.reasoningTokens))
    (hctx : int64Range (c.contextTokens + res.usage.totalTokens)) :
    (sessionProcessPrompt res prompt c).1.messages =
      c.messages ++ [newUserMessage prompt] ∧
    (sessionProcessPrompt res prompt c).1.totalSpent =
      ⟨c.totalSpent.inputTokens + res.usage.inputTokens,
       c.totalSpent.outputTokens + res.usage.outputTokens,
       c.totalSpent.totalTokens + res.usage.totalTokens,
       c.totalSpent.reasoningTokens + res.usage.reasoningTokens⟩ ∧
    (sessionProcessPrompt res prompt c).1.contextTokens =
      c.contextTokens + res.usage.totalTokens ∧
    (sessionProcessPrompt res prompt c).2.1 = Message.zero ∧
    (sessionProcessPrompt res prompt c).2.2.1 = Usage.zero ∧
    (sessionProcessPrompt res prompt c).2.2.2 = true := by
  simp [sessionProcessPrompt, herr, addUsage, wrap64_eq_self _ hin,
    wrap64_eq_self _ hout, wrap64_eq_self _ htot, wrap64_eq_self _ hreas,
    wrap64_eq_self _ hctx]

/-- C10 witness: a failing Agent call with non-zero reported usage leaves
the user message in history, bumps both counters, and returns zero values
with the error. -/
theorem processPrompt_error_accounting_witness :
    (sessionProcessPrompt ⟨Message.zero, ⟨7, 0, 7, 0⟩, true⟩ "hi"
        ⟨[], ⟨1, 2, 3, 4⟩, 3⟩).1.messages = [⟨"user", "hi"⟩] ∧
    (sessionProcessPrompt ⟨Message.zero, ⟨7, 0, 7, 0⟩, true⟩ "hi"
        ⟨[], ⟨1, 2, 3, 4⟩, 3⟩).1.totalSpent = ⟨8, 2, 10, 4⟩ ∧
    (sessionProcessPrompt ⟨Message.zero, ⟨7, 0, 7, 0⟩, true⟩ "hi"
        ⟨[], ⟨1, 2, 3, 4⟩, 3⟩).1.contextTokens = 10 ∧
    (sessionProcessPrompt ⟨Message.zero, ⟨7, 0, 7, 0⟩, true⟩ "hi"
        ⟨[], ⟨1, 2, 3, 4⟩, 3⟩).2.2.2 = true := by
  have h := processPrompt_error_accounting ⟨Message.zero, ⟨7, 0, 7, 0⟩, true⟩ "hi"
    ⟨[], ⟨1, 2, 3, 4⟩, 3⟩ rfl (by decide) (by decide) (by decide) (by decide) (by decide)
  exact ⟨h.1, h.2.1, h.2.2.1, h.2.2.2.2.2⟩

end Coreclaw
